import Mathlib

/-!
# Domain Reputation API client: request/response pipeline

A shallow embedding of the Go package `domainreputation`
(`domainreputation.go`, `options.go`, `models.go`) and the properties of its
two public operations, `Get` and `GetRaw`.

Modelling conventions.

* A Go pointer, interface value or map entry that may be nil/absent is a
  `Nilable`.
* `url.Values` is a finite map from keys to lists of values; it is modelled by
  its lookup function. `Values.Encode` followed by `URL.Query` is the identity
  on the parameter sets the package builds, so `URL.RawQuery` is represented by
  the parameter set it encodes.
* An `Option` mutates the parameter set it is given; here it returns the
  mutated set.
* The standard library and the parts of the package kept in `client.go`
  (`Client.NewRequest`, `Client.Do`) are inputs of the model: the Unicode
  upper-case table, the JSON decoder, and the two client methods are
  parameters, universally quantified in the theorems.
* Every operation also returns the list of requests it handed to `Client.Do`,
  so that "no network call" is a statement about that list.
-/

set_option autoImplicit false
set_option linter.dupNamespace false

/-- A Go value that may be nil: a pointer, an interface value, a map entry. -/
abbrev Nilable (α : Type) : Type := Option α

namespace DomainReputation

/-- A Go byte slice. -/
abbrev Bytes : Type := List UInt8

/-! ## Standard library -/

/-- The Go type `url.Values`, a map from a key to its list of values, given by
its lookup function (`none` for a key that is not in the map). -/
abbrev Values : Type := String → Nilable (List String)

/-- The empty map `url.Values{}`. -/
def Values.empty : Values := fun _ => none

/-- The method `url.Values.Set`: the key is mapped to the single value,
replacing any existing values. -/
def Values.Set (v : Values) (key value : String) : Values :=
  fun k => if k = key then some [value] else v k

/-- The ASCII test at the head of `strings.ToUpper`: no byte of the string is
`utf8.RuneSelf` (128) or above. -/
def isASCII (s : String) : Bool := s.data.all (fun c => decide (c.toNat < 128))

/-- The ASCII branch of `strings.ToUpper`: the letters a to z lose 32. -/
def asciiToUpper (c : Char) : Char :=
  if 97 ≤ c.toNat ∧ c.toNat ≤ 122 then Char.ofNat (c.toNat - 32) else c

/-- The function `strings.ToUpper`. A string of ASCII bytes is upper-cased
bytewise; any other string is mapped rune by rune through `unicode.ToUpper`,
whose case table is the parameter `unicodeToUpper`. -/
def ToUpper (unicodeToUpper : Char → Char) (s : String) : String :=
  if isASCII s then String.mk (s.data.map asciiToUpper)
  else String.mk (s.data.map unicodeToUpper)

/-- A `context.Context`; the package only passes it on to `Client.Do`. -/
structure Context where
  token : Nat
deriving DecidableEq, Repr

/-- The part of `url.URL` the package touches. `RawQuery` is represented by the
parameter set it encodes. -/
structure URL where
  Scheme : String
  Host : String
  Path : String
  RawQuery : Values

/-- The part of `http.Request` the package touches. -/
structure Request where
  Method : String
  URL : URL
  Header : Values

/-- The constant `http.MethodGet`. -/
def MethodGet : String := "GET"

/-- The part of `http.Response` the package reads once the body has been
drained. -/
structure HttpResponse where
  StatusCode : Int
  Header : Values

/-- A Go `float64`, carried as its IEEE 754 bit pattern; the package never
computes with it. -/
structure float64 where
  bits : Nat
deriving DecidableEq, Repr

/-! ## models.go -/

/-- Warning is the warning detected during the test execution. -/
structure Warning where
  WarningDescription : String
  WarningCode : Int
deriving DecidableEq, Repr

/-- TestResult is a part of the response containing the test results. -/
structure TestResult where
  Test : String
  TestCode : Int
  Warnings : List Warning
deriving DecidableEq, Repr

/-- DomainReputationResponse is a response of Domain Reputation API. -/
structure DomainReputationResponse where
  Mode : String
  ReputationScore : float64
  TestResults : List TestResult
deriving DecidableEq, Repr

/-- ErrorMessage is the error message reported by the service. -/
structure ErrorMessage where
  Code : Int
  Message : String
deriving DecidableEq, Repr

/-- The method `(*ErrorMessage).Error`:
`fmt.Sprintf("API error: [%d] %s", e.Code, e.Message)`. -/
def ErrorMessage.Error (e : ErrorMessage) : String :=
  "API error: [" ++ toString e.Code ++ "] " ++ e.Message

/-! ## domainreputation.go: errors -/

/-- ArgError is the argument error. -/
structure ArgError where
  Name : String
  Message : String
deriving DecidableEq, Repr

/-- The method `(*ArgError).Error`. -/
def ArgError.Error (a : ArgError) : String :=
  "invalid argument: \"" ++ a.Name ++ "\" " ++ a.Message

/-- A Go `error` value, by dynamic type. -/
inductive GoError where
  /-- An `*ArgError`. -/
  | arg (a : ArgError)
  /-- An `*ErrorMessage`. -/
  | api (e : ErrorMessage)
  /-- The status error of `checkResponse`, carrying the status code. -/
  | status (code : Int)
  /-- The value of `fmt.Errorf(pfx + "%w", cause)`. -/
  | wrap (pfx : String) (cause : GoError)
  /-- An error made outside the package (transport, decoder), by its text. -/
  | external (text : String)
deriving DecidableEq, Repr

/-- The method `Error` of an `error` value. -/
def GoError.Error : GoError → String
  | .arg a => a.Error
  | .api e => e.Error
  | .status code => "API failed with status code: " ++ toString code
  | .wrap pfx cause => pfx ++ cause.Error
  | .external text => text

/-- The error has dynamic type `*ErrorMessage`. -/
def GoError.isErrorMessage : GoError → Bool
  | .api _ => true
  | _ => false

/-! ## options.go -/

/-- Option adds parameters to the query. -/
abbrev Option : Type := Values → Values

/-- OptionOutputFormat sets Response output format JSON | XML. -/
def OptionOutputFormat (unicodeToUpper : Char → Char) (outputFormat : String) : Option :=
  fun v => Values.Set v "outputFormat" (ToUpper unicodeToUpper outputFormat)

/-- OptionMode sets the check mode. -/
def OptionMode (mode : String) : Option :=
  fun v => Values.Set v "mode" mode

/-! ## domainreputation.go: the service -/

/-- Response is the `http.Response` wrapper with Body saved as a byte slice. -/
structure Response where
  Response : Nilable HttpResponse
  Body : Bytes

/-- What a call `resp, err := client.Do(ctx, req, &b)` leaves behind: the two
results and the bytes written to the buffer `b`. -/
structure DoResult where
  resp : Nilable HttpResponse
  written : Bytes
  err : Nilable GoError

/-- The client. `client.go` is not among the sources: the credential is a
field, and the two methods the service calls, `NewRequest` (applied to the
method and the URL; the body argument is always nil) and `Do`, are fields
holding their behaviour. -/
structure Client where
  apiKey : String
  NewRequest : String → URL → Except GoError Request
  Do : Context → Request → DoResult

/-- The type implementing the DomainReputation interface. -/
structure domainReputationServiceOp where
  client : Client
  baseURL : URL

/-- The result of running an operation: the values it returns and the requests
it handed to `Client.Do`, in order. -/
structure Ran (α : Type) where
  returned : α
  sent : List Request

/-- newRequest creates the API request with default parameters and the
specified apiKey. -/
def domainReputationServiceOp.newRequest (service : domainReputationServiceOp) :
    Except GoError Request :=
  match service.client.NewRequest MethodGet service.baseURL with
  | .error err => .error err
  | .ok req =>
    let query := Values.Set Values.empty "apiKey" service.client.apiKey
    .ok { req with URL := { req.URL with RawQuery := query } }

/-- apiResponse is used for parsing the API response as a model instance: the
two embedded structs of the source. -/
structure apiResponse where
  DomainReputationResponse : DomainReputationResponse
  ErrorMessage : ErrorMessage
deriving DecidableEq, Repr

/-- The loop `for _, opt := range opts { opt(q) }`. -/
def applyOptions (q : Values) (opts : List Option) : Values :=
  opts.foldl (fun v opt => opt v) q

/-- request returns intermediate API response for further actions. The result
is the Go pair `(*Response, error)`: `.ok resp` is `(resp, nil)` with `resp`
not nil, `.error (resp, err)` is `(resp, err)` with `err` not nil. -/
def domainReputationServiceOp.request (service : domainReputationServiceOp)
    (ctx : Context) (domainName : String) (opts : List Option) :
    Ran (Except (Nilable Response × GoError) Response) :=
  if domainName = "" then
    ⟨.error (none, .arg ⟨"domainName", "can not be empty"⟩), []⟩
  else
    match service.newRequest with
    | .error err => ⟨.error (none, err), []⟩
    | .ok req =>
      let q := Values.Set req.URL.RawQuery "domainName" domainName
      let q := applyOptions q opts
      let req : Request := { req with URL := { req.URL with RawQuery := q } }
      let d := service.client.Do ctx req
      match d.err with
      | some err => ⟨.error (some ⟨d.resp, d.written⟩, err), [req]⟩
      | none => ⟨.ok ⟨d.resp, d.written⟩, [req]⟩

/-- parse parses raw Domain Reputation API response. The JSON decoder
(`json.NewDecoder(...).Decode`) is the parameter `decode`. -/
def parse (decode : Bytes → Except GoError apiResponse) (raw : Bytes) :
    Except GoError apiResponse :=
  match decode raw with
  | .error err => .error (.wrap "cannot parse response: " err)
  | .ok response => .ok response

/-- The three results of `Get`. -/
structure GetResult where
  domainReputationResponse : Nilable DomainReputationResponse
  resp : Nilable Response
  err : Nilable GoError

/-- Get returns parsed Domain Reputation API response. -/
def domainReputationServiceOp.Get (unicodeToUpper : Char → Char)
    (decode : Bytes → Except GoError apiResponse)
    (service : domainReputationServiceOp) (ctx : Context) (domainName : String)
    (opts : List Option) : Ran GetResult :=
  let optsJSON := opts ++ [OptionOutputFormat unicodeToUpper "JSON"]
  let r := service.request ctx domainName optsJSON
  match r.returned with
  | .error (resp, err) => ⟨⟨none, resp, some err⟩, r.sent⟩
  | .ok resp =>
    match parse decode resp.Body with
    | .error err => ⟨⟨none, some resp, some err⟩, r.sent⟩
    | .ok domainReputationResp =>
      if domainReputationResp.ErrorMessage.Message ≠ "" ∨
          domainReputationResp.ErrorMessage.Code ≠ 0 then
        ⟨⟨none, none, some (.api ⟨domainReputationResp.ErrorMessage.Code,
          domainReputationResp.ErrorMessage.Message⟩)⟩, r.sent⟩
      else
        ⟨⟨some domainReputationResp.DomainReputationResponse, some resp, none⟩, r.sent⟩

/-- Modelled from the spec: `checkResponse` of `client.go`, which is not among
the sources. Any status code outside the success range 200 to 299 yields the
status error "API failed with status code: <code>"; a code inside it yields no
error. -/
def checkResponse (r : HttpResponse) : Nilable GoError :=
  if 200 ≤ r.StatusCode ∧ r.StatusCode ≤ 299 then none else some (.status r.StatusCode)

/-- The two results of `GetRaw`. -/
structure GetRawResult where
  resp : Nilable Response
  err : Nilable GoError

/-- How a Go call ends: it returns, or it stops in a run-time panic. -/
inductive Run (α : Type) where
  | returns (a : α)
  | panics

/-- GetRaw returns raw Domain Reputation API response as the Response struct
with Body saved as a byte slice. `checkResponse` reads the status of
`resp.Response`; when `Do` reported no error and no response either, that is a
nil dereference. -/
def domainReputationServiceOp.GetRaw (service : domainReputationServiceOp)
    (ctx : Context) (domainName : String) (opts : List Option) :
    Ran (Run GetRawResult) :=
  let r := service.request ctx domainName opts
  match r.returned with
  | .error (resp, err) => ⟨.returns ⟨resp, some err⟩, r.sent⟩
  | .ok resp =>
    match resp.Response with
    | none => ⟨.panics, r.sent⟩
    | some httpResp =>
      match checkResponse httpResp with
      | some respErr => ⟨.returns ⟨some resp, some respErr⟩, r.sent⟩
      | none => ⟨.returns ⟨some resp, none⟩, r.sent⟩

/-- The request `request` hands to `Client.Do` when `NewRequest` returned
`req`: the query holds the credential, then the domain name, then whatever the
options make of it, applied left to right. -/
def builtRequest (apiKey : String) (req : Request) (domainName : String)
    (opts : List Option) : Request :=
  let query := Values.Set Values.empty "apiKey" apiKey
  let q := applyOptions (Values.Set query "domainName" domainName) opts
  { req with URL := { req.URL with RawQuery := q } }

/-! ## The transport adapter of client.go -/

/-- The byte stream of a response body: the bytes it yields, and the error
with which reading stops instead of a clean end of stream, if any. -/
structure BodyStream where
  bytes : Bytes
  failure : Nilable GoError

/-- The body stream `net/http` gives for a response whose header declares
`declared` bytes (its Content-Length, if it has one) and whose connection
delivers `delivered` and then closes: fewer bytes than declared end in
"unexpected EOF", anything else ends cleanly. -/
def bodyStream (declared : Nilable Nat) (delivered : Bytes) : BodyStream :=
  match declared with
  | some n =>
    if delivered.length < n then ⟨delivered, some (.external "unexpected EOF")⟩
    else ⟨delivered.take n, none⟩
  | none => ⟨delivered, none⟩

/-- Modelled from the spec: `Client.Do` of `client.go`, which is not among the
sources (spec 4.3, 4.4 and 7). It delegates to the injected executor; a
transport-level failure is returned as it is; otherwise the body stream is
drained fully into the buffer, and a stream that fails partway is the read
error "cannot read response: <cause>", returned with the response and the
bytes read so far. -/
def specDo (execute : Context → Request → Except GoError (HttpResponse × BodyStream)) :
    Context → Request → DoResult :=
  fun ctx req =>
    match execute ctx req with
    | .error err => ⟨none, [], some err⟩
    | .ok (r, body) =>
      match body.failure with
      | some cause => ⟨some r, body.bytes, some (.wrap "cannot read response: " cause)⟩
      | none => ⟨some r, body.bytes, none⟩

/-! ## Fixtures of client_test.go -/

/-- The bytes of an ASCII text. -/
def asciiBytes (s : String) : Bytes := s.data.map (fun c => UInt8.ofNat c.toNat)

/-- The constant `apiKey` of the tests. -/
def testApiKey : String := "at_LoremIpsumDolorSitAmetConsect"

/-- A successful response body, as `resp` of the tests with no test results. -/
def respBody : Bytes :=
  asciiBytes "\x7b\"mode\":\"fast\",\"reputationScore\":98.58,\"testResults\":[]\x7d"

/-- The record the JSON decoder makes of `respBody`; 98.58 is the `float64`
with bit pattern 0x4058A51EB851EB85. -/
def respRecord : apiResponse :=
  ⟨⟨"fast", ⟨4636637367737904005⟩, []⟩, ⟨0, ""⟩⟩

/-- The body `errResp` of the tests. -/
def errRespBody : Bytes :=
  asciiBytes "\x7b\"code\":499,\"messages\":\"Test error message.\"\x7d"

/-- The record the JSON decoder makes of `errRespBody`. -/
def errRespRecord : apiResponse :=
  ⟨⟨"", ⟨0⟩, []⟩, ⟨499, "Test error message."⟩⟩

/-- The body `respUnparsable` of the tests. -/
def respUnparsableBody : Bytes :=
  asciiBytes "<?xml version=\"1.0\" encoding=\"utf-8\"?><>"

/-- The JSON decoder on the fixture bodies: the two JSON bodies decode to their
records, anything else is rejected. -/
def testDecode (raw : Bytes) : Except GoError apiResponse :=
  if raw = respBody then .ok respRecord
  else if raw = errRespBody then .ok errRespRecord
  else .error (.external "invalid character")

/-- The URL of the test server. -/
def testURL : URL := ⟨"http", "127.0.0.1", "/DomainReputation", Values.empty⟩

/-- A client in the manner of `newAPI`: `NewRequest` makes a request for the
given method and URL, and `Do` answers every request with the given status
code and body. -/
def testClient (status : Int) (body : Bytes) : Client :=
  { apiKey := testApiKey
    NewRequest := fun method u => .ok ⟨method, u, Values.empty⟩
    Do := fun _ _ => ⟨some ⟨status, Values.empty⟩, body, none⟩ }

/-- The service of `testClient`. -/
def testService (status : Int) (body : Bytes) : domainReputationServiceOp :=
  ⟨testClient status body, testURL⟩

/-- A client whose `Do` is `specDo` over an executor that answers every request
with status 200 and the body stream of `delivered` under the declared
length. -/
def streamService (declared : Nilable Nat) (delivered : Bytes) :
    domainReputationServiceOp :=
  ⟨{ apiKey := testApiKey
     NewRequest := fun method u => .ok ⟨method, u, Values.empty⟩
     Do := specDo (fun _ _ => .ok (⟨200, Values.empty⟩, bodyStream declared delivered)) },
   testURL⟩

/-- The background context of the tests. -/
def testCtx : Context := ⟨0⟩

/-- A caller-written Option that replaces the credential. -/
def optionReplaceKey : Option := fun v => Values.Set v "apiKey" "intruder"

/-! ## Helper lemmas -/

theorem ToUpper_JSON (unicodeToUpper : Char → Char) :
    ToUpper unicodeToUpper "JSON" = "JSON" := by
  have h : isASCII "JSON" = true := by decide
  have h2 : String.mk ("JSON".data.map asciiToUpper) = "JSON" := by decide
  simp only [ToUpper, h, h2, if_true]

theorem request_empty (service : domainReputationServiceOp) (ctx : Context)
    (opts : List Option) :
    service.request ctx "" opts =
      ⟨.error (none, .arg ⟨"domainName", "can not be empty"⟩), []⟩ := by
  simp [domainReputationServiceOp.request]

theorem request_built (service : domainReputationServiceOp) (ctx : Context)
    (domainName : String) (opts : List Option) (req : Request)
    (hname : domainName ≠ "")
    (hnew : service.client.NewRequest MethodGet service.baseURL = .ok req) :
    service.request ctx domainName opts =
      match (service.client.Do ctx
          (builtRequest service.client.apiKey req domainName opts)).err with
      | some err =>
        ⟨.error (some ⟨(service.client.Do ctx
            (builtRequest service.client.apiKey req domainName opts)).resp,
          (service.client.Do ctx
            (builtRequest service.client.apiKey req domainName opts)).written⟩, err),
          [builtRequest service.client.apiKey req domainName opts]⟩
      | none =>
        ⟨.ok ⟨(service.client.Do ctx
            (builtRequest service.client.apiKey req domainName opts)).resp,
          (service.client.Do ctx
            (builtRequest service.client.apiKey req domainName opts)).written⟩,
          [builtRequest service.client.apiKey req domainName opts]⟩ := by
  simp [domainReputationServiceOp.request, domainReputationServiceOp.newRequest, hname,
    hnew, builtRequest]

theorem Get_sent (unicodeToUpper : Char → Char)
    (decode : Bytes → Except GoError apiResponse)
    (service : domainReputationServiceOp) (ctx : Context) (domainName : String)
    (opts : List Option) :
    (service.Get unicodeToUpper decode ctx domainName opts).sent =
      (service.request ctx domainName
        (opts ++ [OptionOutputFormat unicodeToUpper "JSON"])).sent := by
  unfold domainReputationServiceOp.Get
  simp only []
  split
  · rfl
  · split
    · rfl
    · split <;> rfl

theorem GetRaw_sent (service : domainReputationServiceOp) (ctx : Context)
    (domainName : String) (opts : List Option) :
    (service.GetRaw ctx domainName opts).sent =
      (service.request ctx domainName opts).sent := by
  unfold domainReputationServiceOp.GetRaw
  simp only []
  split
  · rfl
  · split
    · rfl
    · split <;> rfl

theorem request_sent (service : domainReputationServiceOp) (ctx : Context)
    (domainName : String) (opts : List Option) (req : Request)
    (hname : domainName ≠ "")
    (hnew : service.client.NewRequest MethodGet service.baseURL = .ok req) :
    (service.request ctx domainName opts).sent =
      [builtRequest service.client.apiKey req domainName opts] := by
  rw [request_built service ctx domainName opts req hname hnew]
  split <;> rfl

theorem request_ok (service : domainReputationServiceOp) (ctx : Context)
    (domainName : String) (opts : List Option) (req : Request)
    (httpResp : Nilable HttpResponse) (body : Bytes)
    (hname : domainName ≠ "")
    (hnew : service.client.NewRequest MethodGet service.baseURL = .ok req)
    (hdo : service.client.Do ctx (builtRequest service.client.apiKey req domainName opts)
      = ⟨httpResp, body, none⟩) :
    (service.request ctx domainName opts).returned = .ok ⟨httpResp, body⟩ := by
  rw [request_built service ctx domainName opts req hname hnew, hdo]

theorem request_failed (service : domainReputationServiceOp) (ctx : Context)
    (domainName : String) (opts : List Option) (req : Request)
    (httpResp : Nilable HttpResponse) (body : Bytes) (err : GoError)
    (hname : domainName ≠ "")
    (hnew : service.client.NewRequest MethodGet service.baseURL = .ok req)
    (hdo : service.client.Do ctx (builtRequest service.client.apiKey req domainName opts)
      = ⟨httpResp, body, some err⟩) :
    (service.request ctx domainName opts).returned =
      .error (some ⟨httpResp, body⟩, err) := by
  rw [request_built service ctx domainName opts req hname hnew, hdo]

theorem Get_returned_of_request_ok (unicodeToUpper : Char → Char)
    (decode : Bytes → Except GoError apiResponse)
    (service : domainReputationServiceOp) (ctx : Context) (domainName : String)
    (opts : List Option) (resp : Response)
    (h : (service.request ctx domainName
      (opts ++ [OptionOutputFormat unicodeToUpper "JSON"])).returned = .ok resp) :
    (service.Get unicodeToUpper decode ctx domainName opts).returned =
      match decode resp.Body with
      | .error err => ⟨none, some resp, some (.wrap "cannot parse response: " err)⟩
      | .ok r =>
        if r.ErrorMessage.Message ≠ "" ∨ r.ErrorMessage.Code ≠ 0 then
          ⟨none, none, some (.api ⟨r.ErrorMessage.Code, r.ErrorMessage.Message⟩)⟩
        else ⟨some r.DomainReputationResponse, some resp, none⟩ := by
  unfold domainReputationServiceOp.Get
  simp only [h, parse]
  cases hd : decode resp.Body with
  | error e => rfl
  | ok r =>
    simp only []
    split <;> rfl

theorem Get_returned_of_request_error (unicodeToUpper : Char → Char)
    (decode : Bytes → Except GoError apiResponse)
    (service : domainReputationServiceOp) (ctx : Context) (domainName : String)
    (opts : List Option) (resp : Nilable Response) (err : GoError)
    (h : (service.request ctx domainName
      (opts ++ [OptionOutputFormat unicodeToUpper "JSON"])).returned = .error (resp, err)) :
    (service.Get unicodeToUpper decode ctx domainName opts).returned =
      ⟨none, resp, some err⟩ := by
  unfold domainReputationServiceOp.Get
  simp only [h]

theorem GetRaw_returned_of_request_ok (service : domainReputationServiceOp)
    (ctx : Context) (domainName : String) (opts : List Option)
    (httpResp : HttpResponse) (body : Bytes)
    (h : (service.request ctx domainName opts).returned = .ok ⟨some httpResp, body⟩) :
    (service.GetRaw ctx domainName opts).returned =
      .returns ⟨some ⟨some httpResp, body⟩, checkResponse httpResp⟩ := by
  unfold domainReputationServiceOp.GetRaw
  simp only [h]
  cases hc : checkResponse httpResp <;> rfl

theorem GetRaw_returned_of_request_error (service : domainReputationServiceOp)
    (ctx : Context) (domainName : String) (opts : List Option)
    (resp : Nilable Response) (err : GoError)
    (h : (service.request ctx domainName opts).returned = .error (resp, err)) :
    (service.GetRaw ctx domainName opts).returned = .returns ⟨resp, some err⟩ := by
  unfold domainReputationServiceOp.GetRaw
  simp only [h]

theorem applyOptions_append (q : Values) (opts more : List Option) :
    applyOptions q (opts ++ more) = applyOptions (applyOptions q opts) more := by
  simp [applyOptions, List.foldl_append]

theorem applyOptions_keeps (key : String) (opts : List Option)
    (hkeep : ∀ opt ∈ opts, ∀ v : Values, opt v key = v key) (q : Values) :
    applyOptions q opts key = q key := by
  induction opts generalizing q with
  | nil => rfl
  | cons opt rest ih =>
    have hrest : ∀ o ∈ rest, ∀ v : Values, o v key = v key :=
      fun o ho => hkeep o (List.mem_cons_of_mem opt ho)
    have hhead := hkeep opt (List.mem_cons_self opt rest) q
    show applyOptions (opt q) rest key = q key
    rw [ih hrest (opt q), hhead]

theorem builtRequest_query (apiKey : String) (req : Request) (domainName : String)
    (opts : List Option) :
    (builtRequest apiKey req domainName opts).URL.RawQuery =
      applyOptions (Values.Set (Values.Set Values.empty "apiKey" apiKey)
        "domainName" domainName) opts := rfl

/-! ## Theorems -/

/-- C1: for every client, every option sequence and the empty domain name,
`Get` and `GetRaw` both return the `ArgError` with name "domainName" and
message "can not be empty", whose text is
`invalid argument: "domainName" can not be empty`; the typed result of `Get`
is nil; and no request is handed to `Client.Do`. -/
theorem C1_empty_domainName_ArgError (unicodeToUpper : Char → Char)
    (decode : Bytes → Except GoError apiResponse)
    (service : domainReputationServiceOp) (ctx : Context) (opts : List Option) :
    (service.Get unicodeToUpper decode ctx "" opts).returned.err =
        some (.arg ⟨"domainName", "can not be empty"⟩) ∧
      (service.Get unicodeToUpper decode ctx "" opts).returned.domainReputationResponse
        = none ∧
      (service.Get unicodeToUpper decode ctx "" opts).sent = [] ∧
      ((service.GetRaw ctx "" opts).returned =
        .returns ⟨none, some (.arg ⟨"domainName", "can not be empty"⟩)⟩) ∧
      (service.GetRaw ctx "" opts).sent = [] ∧
      (GoError.arg ⟨"domainName", "can not be empty"⟩).Error =
        "invalid argument: \"domainName\" can not be empty" := by
  refine ⟨?_, ?_, ?_, ?_, ?_, ?_⟩
  · simp [domainReputationServiceOp.Get, request_empty]
  · simp [domainReputationServiceOp.Get, request_empty]
  · simp [domainReputationServiceOp.Get, request_empty]
  · simp [domainReputationServiceOp.GetRaw, request_empty]
  · simp [domainReputationServiceOp.GetRaw, request_empty]
  · decide

/-- C2: for a non-empty domain name, when the transport succeeds and the body
decodes into a record with a non-empty message or a non-zero code, `Get`
returns a nil typed result and the `*ErrorMessage` carrying the decoded code
and message, whose text is "API error: [<code>] <message>"; the response
`httpResp`, and so its status code, is arbitrary. -/
theorem C2_Get_api_error (unicodeToUpper : Char → Char)
    (decode : Bytes → Except GoError apiResponse)
    (service : domainReputationServiceOp) (ctx : Context) (domainName : String)
    (opts : List Option) (req : Request) (httpResp : Nilable HttpResponse)
    (body : Bytes) (r : apiResponse)
    (hname : domainName ≠ "")
    (hnew : service.client.NewRequest MethodGet service.baseURL = .ok req)
    (hdo : service.client.Do ctx (builtRequest service.client.apiKey req domainName
      (opts ++ [OptionOutputFormat unicodeToUpper "JSON"])) = ⟨httpResp, body, none⟩)
    (hdec : decode body = .ok r)
    (herr : r.ErrorMessage.Message ≠ "" ∨ r.ErrorMessage.Code ≠ 0) :
    (service.Get unicodeToUpper decode ctx domainName opts).returned.domainReputationResponse
        = none ∧
      (service.Get unicodeToUpper decode ctx domainName opts).returned.err =
        some (.api ⟨r.ErrorMessage.Code, r.ErrorMessage.Message⟩) ∧
      (GoError.api ⟨r.ErrorMessage.Code, r.ErrorMessage.Message⟩).Error =
        "API error: [" ++ toString r.ErrorMessage.Code ++ "] " ++ r.ErrorMessage.Message := by
  have hreq := request_ok service ctx domainName _ req httpResp body hname hnew hdo
  have hget := Get_returned_of_request_ok unicodeToUpper decode service ctx domainName
    opts _ hreq
  simp only [hdec, if_pos herr] at hget
  exact ⟨by rw [hget], by rw [hget], rfl⟩

/-- Witness of C2 on the "could not process request" test: status 499 and the
body `errResp` give the API error with code 499 and the message of the body. -/
theorem C2_Get_api_error_witness :
    ((testService 499 errRespBody).Get Char.toUpper testDecode testCtx
        "whoisxmlapi.com" [OptionOutputFormat Char.toUpper "JSON"]).returned.domainReputationResponse
        = none ∧
      ((testService 499 errRespBody).Get Char.toUpper testDecode testCtx
        "whoisxmlapi.com" [OptionOutputFormat Char.toUpper "JSON"]).returned.err =
        some (.api ⟨499, "Test error message."⟩) ∧
      (GoError.api ⟨499, "Test error message."⟩).Error =
        "API error: [499] Test error message." :=
  C2_Get_api_error Char.toUpper testDecode (testService 499 errRespBody) testCtx
    "whoisxmlapi.com" [OptionOutputFormat Char.toUpper "JSON"]
    ⟨MethodGet, testURL, Values.empty⟩ (some ⟨499, Values.empty⟩) errRespBody errRespRecord
    (by decide) rfl rfl rfl (by decide)

/-- C3: for a non-empty domain name, when the transport succeeds and the
decoder rejects the body with error `e`, `Get` returns a nil typed result and
the error `fmt.Errorf("cannot parse response: %w", e)`, whose text is
"cannot parse response: " followed by the text of `e`. The response
`httpResp`, and so its status code, is arbitrary: a non-2xx status with a body
that does not decode gives this parse error, never a status error. -/
theorem C3_Get_parse_error (unicodeToUpper : Char → Char)
    (decode : Bytes → Except GoError apiResponse)
    (service : domainReputationServiceOp) (ctx : Context) (domainName : String)
    (opts : List Option) (req : Request) (httpResp : Nilable HttpResponse)
    (body : Bytes) (e : GoError)
    (hname : domainName ≠ "")
    (hnew : service.client.NewRequest MethodGet service.baseURL = .ok req)
    (hdo : service.client.Do ctx (builtRequest service.client.apiKey req domainName
      (opts ++ [OptionOutputFormat unicodeToUpper "JSON"])) = ⟨httpResp, body, none⟩)
    (hdec : decode body = .error e) :
    (service.Get unicodeToUpper decode ctx domainName opts).returned.domainReputationResponse
        = none ∧
      (service.Get unicodeToUpper decode ctx domainName opts).returned.err =
        some (.wrap "cannot parse response: " e) ∧
      (GoError.wrap "cannot parse response: " e).Error =
        "cannot parse response: " ++ e.Error ∧
      ∀ code : Int,
        (service.Get unicodeToUpper decode ctx domainName opts).returned.err ≠
          some (.status code) := by
  have hreq := request_ok service ctx domainName _ req httpResp body hname hnew hdo
  have hget := Get_returned_of_request_ok unicodeToUpper decode service ctx domainName
    opts _ hreq
  simp only [hdec] at hget
  refine ⟨by rw [hget], by rw [hget], rfl, ?_⟩
  intro code
  rw [hget]
  simp

/-- Witness of C3 on the "non 200 status code" test: status 500 and the body
`respUnparsable` give the parse error. -/
theorem C3_Get_parse_error_witness :
    ((testService 500 respUnparsableBody).Get Char.toUpper testDecode testCtx
        "whoisxmlapi.com" [OptionOutputFormat Char.toUpper "JSON"]).returned.domainReputationResponse
        = none ∧
      ((testService 500 respUnparsableBody).Get Char.toUpper testDecode testCtx
        "whoisxmlapi.com" [OptionOutputFormat Char.toUpper "JSON"]).returned.err =
        some (.wrap "cannot parse response: " (.external "invalid character")) ∧
      (GoError.wrap "cannot parse response: " (.external "invalid character")).Error =
        "cannot parse response: invalid character" ∧
      ∀ code : Int,
        ((testService 500 respUnparsableBody).Get Char.toUpper testDecode testCtx
          "whoisxmlapi.com" [OptionOutputFormat Char.toUpper "JSON"]).returned.err ≠
          some (.status code) :=
  C3_Get_parse_error Char.toUpper testDecode (testService 500 respUnparsableBody) testCtx
    "whoisxmlapi.com" [OptionOutputFormat Char.toUpper "JSON"]
    ⟨MethodGet, testURL, Values.empty⟩ (some ⟨500, Values.empty⟩) respUnparsableBody
    (.external "invalid character") (by decide) rfl rfl rfl

/-- C5: for a non-empty domain name, when the transport succeeds and the body
decodes into a record with an empty message and a zero code, `Get` returns a
nil error and a non-nil typed result that is the `DomainReputationResponse`
part of the decoded record, so its Mode, ReputationScore and TestResults are
those of the record. -/
theorem C5_Get_success (unicodeToUpper : Char → Char)
    (decode : Bytes → Except GoError apiResponse)
    (service : domainReputationServiceOp) (ctx : Context) (domainName : String)
    (opts : List Option) (req : Request) (httpResp : Nilable HttpResponse)
    (body : Bytes) (r : apiResponse)
    (hname : domainName ≠ "")
    (hnew : service.client.NewRequest MethodGet service.baseURL = .ok req)
    (hdo : service.client.Do ctx (builtRequest service.client.apiKey req domainName
      (opts ++ [OptionOutputFormat unicodeToUpper "JSON"])) = ⟨httpResp, body, none⟩)
    (hdec : decode body = .ok r)
    (hmsg : r.ErrorMessage.Message = "") (hcode : r.ErrorMessage.Code = 0) :
    (service.Get unicodeToUpper decode ctx domainName opts).returned.err = none ∧
      ∃ result : DomainReputationResponse,
        (service.Get unicodeToUpper decode ctx domainName opts).returned.domainReputationResponse
          = some result ∧
        result.Mode = r.DomainReputationResponse.Mode ∧
        result.ReputationScore = r.DomainReputationResponse.ReputationScore ∧
        result.TestResults = r.DomainReputationResponse.TestResults := by
  have hreq := request_ok service ctx domainName _ req httpResp body hname hnew hdo
  have hget := Get_returned_of_request_ok unicodeToUpper decode service ctx domainName
    opts _ hreq
  have hno : ¬ (r.ErrorMessage.Message ≠ "" ∨ r.ErrorMessage.Code ≠ 0) := by
    simp [hmsg, hcode]
  simp only [hdec, if_neg hno] at hget
  exact ⟨by rw [hget], r.DomainReputationResponse, by rw [hget], rfl, rfl, rfl⟩

/-- Witness of C5 on the "successful request" test: status 200 and a body with
mode "fast" and score 98.58 give a nil error and a result with Mode "fast". -/
theorem C5_Get_success_witness :
    ((testService 200 respBody).Get Char.toUpper testDecode testCtx
        "whoisxmlapi.com" [OptionOutputFormat Char.toUpper "JSON"]).returned.err = none ∧
      ∃ result : DomainReputationResponse,
        ((testService 200 respBody).Get Char.toUpper testDecode testCtx
          "whoisxmlapi.com"
          [OptionOutputFormat Char.toUpper "JSON"]).returned.domainReputationResponse
          = some result ∧
        result.Mode = "fast" ∧
        result.ReputationScore = ⟨4636637367737904005⟩ ∧
        result.TestResults = [] :=
  C5_Get_success Char.toUpper testDecode (testService 200 respBody) testCtx
    "whoisxmlapi.com" [OptionOutputFormat Char.toUpper "JSON"]
    ⟨MethodGet, testURL, Values.empty⟩ (some ⟨200, Values.empty⟩) respBody respRecord
    (by decide) rfl rfl rfl rfl rfl

/-- C10: for a non-empty domain name, when the transport succeeds, the
envelope `Get` returns is nil exactly when the error it returns is an
`*ErrorMessage`; in every other case, success or parse error, the envelope is
not nil, holds the response of the transport and has the received bytes as
its Body. -/
theorem C10_Get_envelope (unicodeToUpper : Char → Char)
    (decode : Bytes → Except GoError apiResponse)
    (service : domainReputationServiceOp) (ctx : Context) (domainName : String)
    (opts : List Option) (req : Request) (httpResp : Nilable HttpResponse)
    (body : Bytes)
    (hname : domainName ≠ "")
    (hnew : service.client.NewRequest MethodGet service.baseURL = .ok req)
    (hdo : service.client.Do ctx (builtRequest service.client.apiKey req domainName
      (opts ++ [OptionOutputFormat unicodeToUpper "JSON"])) = ⟨httpResp, body, none⟩) :
    ((service.Get unicodeToUpper decode ctx domainName opts).returned.resp = none ↔
        ∃ e : GoError,
          (service.Get unicodeToUpper decode ctx domainName opts).returned.err = some e ∧
          e.isErrorMessage = true) ∧
      ((¬ ∃ e : GoError,
          (service.Get unicodeToUpper decode ctx domainName opts).returned.err = some e ∧
          e.isErrorMessage = true) →
        (service.Get unicodeToUpper decode ctx domainName opts).returned.resp =
          some ⟨httpResp, body⟩) := by
  have hreq := request_ok service ctx domainName _ req httpResp body hname hnew hdo
  have hget := Get_returned_of_request_ok unicodeToUpper decode service ctx domainName
    opts _ hreq
  rw [hget]
  cases hd : decode body with
  | error e => simp [GoError.isErrorMessage]
  | ok r =>
    by_cases herr : r.ErrorMessage.Message ≠ "" ∨ r.ErrorMessage.Code ≠ 0
    · simp only [if_pos herr]
      simp [GoError.isErrorMessage]
    · simp only [if_neg herr]
      simp

/-- Witness of C10 on the fixtures: with status 499 and the body `errResp` the
envelope is nil and the error is the API error. -/
theorem C10_Get_envelope_witness :
    (((testService 499 errRespBody).Get Char.toUpper testDecode testCtx
        "whoisxmlapi.com" []).returned.resp = none ↔
        ∃ e : GoError,
          ((testService 499 errRespBody).Get Char.toUpper testDecode testCtx
            "whoisxmlapi.com" []).returned.err = some e ∧
          e.isErrorMessage = true) ∧
      ((¬ ∃ e : GoError,
          ((testService 499 errRespBody).Get Char.toUpper testDecode testCtx
            "whoisxmlapi.com" []).returned.err = some e ∧
          e.isErrorMessage = true) →
        ((testService 499 errRespBody).Get Char.toUpper testDecode testCtx
          "whoisxmlapi.com" []).returned.resp =
          some ⟨some ⟨499, Values.empty⟩, errRespBody⟩) :=
  C10_Get_envelope Char.toUpper testDecode (testService 499 errRespBody) testCtx
    "whoisxmlapi.com" [] ⟨MethodGet, testURL, Values.empty⟩ (some ⟨499, Values.empty⟩)
    errRespBody (by decide) rfl rfl

/-- C4: for a non-empty domain name, when the transport succeeds with response
`httpResp` and bytes `body`, `GetRaw` returns the envelope holding `httpResp`
with Body equal to `body`; the error is nil when the status code lies in 200
to 299, and is the status error, with text
"API failed with status code: <code>", when it lies outside, the envelope
being returned all the same. `GetRaw` takes no decoder: the body is never
decoded, so the result is the same whether or not it is parseable. -/
theorem C4_GetRaw_status (service : domainReputationServiceOp) (ctx : Context)
    (domainName : String) (opts : List Option) (req : Request)
    (httpResp : HttpResponse) (body : Bytes)
    (hname : domainName ≠ "")
    (hnew : service.client.NewRequest MethodGet service.baseURL = .ok req)
    (hdo : service.client.Do ctx (builtRequest service.client.apiKey req domainName opts)
      = ⟨some httpResp, body, none⟩) :
    ((200 ≤ httpResp.StatusCode ∧ httpResp.StatusCode ≤ 299) →
        (service.GetRaw ctx domainName opts).returned =
          .returns ⟨some ⟨some httpResp, body⟩, none⟩) ∧
      (¬ (200 ≤ httpResp.StatusCode ∧ httpResp.StatusCode ≤ 299) →
        (service.GetRaw ctx domainName opts).returned =
          .returns ⟨some ⟨some httpResp, body⟩, some (.status httpResp.StatusCode)⟩) ∧
      (GoError.status httpResp.StatusCode).Error =
        "API failed with status code: " ++ toString httpResp.StatusCode := by
  have hreq := request_ok service ctx domainName opts req (some httpResp) body hname hnew hdo
  rw [GetRaw_returned_of_request_ok service ctx domainName opts httpResp body hreq]
  refine ⟨fun h => ?_, fun h => ?_, rfl⟩
  · simp only [checkResponse, if_pos h]
  · simp only [checkResponse, if_neg h]

/-- Witness of C4 on the "non 200 status code" test of `GetRaw`: status 500 and
the body `respUnparsable` give the envelope with that body and the status
error for 500. -/
theorem C4_GetRaw_status_witness :
    ((testService 500 respUnparsableBody).GetRaw testCtx "whoisxmlapi.com" []).returned =
        .returns ⟨some ⟨some ⟨500, Values.empty⟩, respUnparsableBody⟩, some (.status 500)⟩ ∧
      (GoError.status 500).Error = "API failed with status code: 500" :=
  ⟨(C4_GetRaw_status (testService 500 respUnparsableBody) testCtx "whoisxmlapi.com" []
      ⟨MethodGet, testURL, Values.empty⟩ ⟨500, Values.empty⟩ respUnparsableBody
      (by decide) rfl rfl).2.1 (by decide),
    (C4_GetRaw_status (testService 500 respUnparsableBody) testCtx "whoisxmlapi.com" []
      ⟨MethodGet, testURL, Values.empty⟩ ⟨500, Values.empty⟩ respUnparsableBody
      (by decide) rfl rfl).2.2⟩

/-- C7: for a non-empty domain name and every sequence of Options, the one
request `Get` hands to `Client.Do` has a query in which outputFormat is
exactly "JSON", because `OptionOutputFormat("JSON")` is applied after the
Options of the caller; the request `GetRaw` hands over has the query made by
the Options of the caller alone, with no override. -/
theorem C7_Get_forces_JSON (unicodeToUpper : Char → Char)
    (decode : Bytes → Except GoError apiResponse)
    (service : domainReputationServiceOp) (ctx : Context) (domainName : String)
    (opts : List Option) (req : Request)
    (hname : domainName ≠ "")
    (hnew : service.client.NewRequest MethodGet service.baseURL = .ok req) :
    (∃ sent : Request,
        (service.Get unicodeToUpper decode ctx domainName opts).sent = [sent] ∧
        sent.URL.RawQuery = OptionOutputFormat unicodeToUpper "JSON"
          (applyOptions (Values.Set (Values.Set Values.empty "apiKey" service.client.apiKey)
            "domainName" domainName) opts) ∧
        sent.URL.RawQuery "outputFormat" = some ["JSON"]) ∧
      ∃ sentRaw : Request,
        (service.GetRaw ctx domainName opts).sent = [sentRaw] ∧
        sentRaw.URL.RawQuery =
          applyOptions (Values.Set (Values.Set Values.empty "apiKey" service.client.apiKey)
            "domainName" domainName) opts := by
  refine ⟨⟨builtRequest service.client.apiKey req domainName
      (opts ++ [OptionOutputFormat unicodeToUpper "JSON"]), ?_, ?_, ?_⟩,
    ⟨builtRequest service.client.apiKey req domainName opts, ?_, rfl⟩⟩
  · rw [Get_sent, request_sent service ctx domainName _ req hname hnew]
  · rw [builtRequest_query, applyOptions_append]
    rfl
  · rw [builtRequest_query, applyOptions_append]
    simp [applyOptions, OptionOutputFormat, Values.Set, ToUpper_JSON]
  · rw [GetRaw_sent, request_sent service ctx domainName _ req hname hnew]

/-- Witness of C7 on the call of `example.go`: with the Option
`OptionOutputFormat("XML")`, the request of `Get` asks for "JSON" and the
request of `GetRaw` asks for "XML". -/
theorem C7_Get_forces_JSON_witness :
    (((testService 200 respBody).Get Char.toUpper testDecode testCtx "whoisxmlapi.com"
        [OptionOutputFormat Char.toUpper "XML"]).sent.map
        (fun r => r.URL.RawQuery "outputFormat") = [some ["JSON"]]) ∧
      (((testService 200 respBody).GetRaw testCtx "whoisxmlapi.com"
        [OptionOutputFormat Char.toUpper "XML"]).sent.map
        (fun r => r.URL.RawQuery "outputFormat") = [some ["XML"]]) := by
  obtain ⟨⟨sent, hsent, -, hjson⟩, ⟨sentRaw, hraw, hquery⟩⟩ :=
    C7_Get_forces_JSON Char.toUpper testDecode (testService 200 respBody) testCtx
      "whoisxmlapi.com" [OptionOutputFormat Char.toUpper "XML"]
      ⟨MethodGet, testURL, Values.empty⟩ (by decide) rfl
  refine ⟨by rw [hsent]; simp [hjson], ?_⟩
  rw [hraw]
  simp only [List.map, hquery]
  have hxml : ToUpper Char.toUpper "XML" = "XML" := by decide
  simp [applyOptions, OptionOutputFormat, Values.Set, hxml]

/-- C9: for every string `s` and every parameter set `v`,
`OptionOutputFormat(s)` leaves outputFormat mapped to the single value
`strings.ToUpper(s)` and `OptionMode(s)` leaves mode mapped to the single value
`s`, unchanged; each leaves every other key of `v` as it was; and applying
either Option twice gives the same parameter set as applying it once. -/
theorem C9_options_set_one_key (unicodeToUpper : Char → Char) (s : String) (v : Values) :
    OptionOutputFormat unicodeToUpper s v "outputFormat" =
        some [ToUpper unicodeToUpper s] ∧
      (∀ key : String, key ≠ "outputFormat" →
        OptionOutputFormat unicodeToUpper s v key = v key) ∧
      OptionMode s v "mode" = some [s] ∧
      (∀ key : String, key ≠ "mode" → OptionMode s v key = v key) ∧
      OptionOutputFormat unicodeToUpper s (OptionOutputFormat unicodeToUpper s v) =
        OptionOutputFormat unicodeToUpper s v ∧
      OptionMode s (OptionMode s v) = OptionMode s v := by
  refine ⟨?_, ?_, ?_, ?_, ?_, ?_⟩
  · simp [OptionOutputFormat, Values.Set]
  · intro key hkey
    simp [OptionOutputFormat, Values.Set, hkey]
  · simp [OptionMode, Values.Set]
  · intro key hkey
    simp [OptionMode, Values.Set, hkey]
  · funext key
    by_cases hkey : key = "outputFormat" <;> simp [OptionOutputFormat, Values.Set, hkey]
  · funext key
    by_cases hkey : key = "mode" <;> simp [OptionMode, Values.Set, hkey]

/-- Witness of C9 on the two cases of `TestOptions`, with a lower-case format:
on the empty parameter set, `OptionOutputFormat("json")` maps outputFormat to
"JSON" and `OptionMode("fast")` maps mode to "fast", and neither sets the key
of the other. -/
theorem C9_options_set_one_key_witness :
    OptionOutputFormat Char.toUpper "json" Values.empty "outputFormat" = some ["JSON"] ∧
      OptionOutputFormat Char.toUpper "json" Values.empty "mode" = none ∧
      OptionMode "fast" Values.empty "mode" = some ["fast"] ∧
      OptionMode "fast" Values.empty "outputFormat" = none := by
  have h := C9_options_set_one_key Char.toUpper "json" Values.empty
  have hfast := C9_options_set_one_key Char.toUpper "fast" Values.empty
  have hup : ToUpper Char.toUpper "json" = "JSON" := by decide
  refine ⟨by rw [h.1, hup], ?_, hfast.2.2.1, ?_⟩
  · rw [h.2.1 "mode" (by decide)]
    rfl
  · rw [hfast.2.2.2.1 "outputFormat" (by decide)]
    rfl

/-- C8, as stated, fails: an Option is any function on the parameter set, and
one that sets apiKey replaces the credential. With the caller-written
`optionReplaceKey`, the request handed to `Client.Do` by `Get` and by `GetRaw`
carries apiKey "intruder", which is not the credential of the client. -/
theorem C8_counterexample_option_replaces_apiKey :
    ((testService 200 respBody).Get Char.toUpper testDecode testCtx "whoisxmlapi.com"
        [optionReplaceKey]).sent.map (fun r => r.URL.RawQuery "apiKey")
        = [some ["intruder"]] ∧
      ((testService 200 respBody).GetRaw testCtx "whoisxmlapi.com"
        [optionReplaceKey]).sent.map (fun r => r.URL.RawQuery "apiKey")
        = [some ["intruder"]] ∧
      (testService 200 respBody).client.apiKey ≠ "intruder" := by
  refine ⟨?_, ?_, by decide⟩
  · rw [Get_sent, request_sent _ testCtx "whoisxmlapi.com" _
      ⟨MethodGet, testURL, Values.empty⟩ (by decide) rfl]
    simp [builtRequest, applyOptions, optionReplaceKey, OptionOutputFormat, Values.Set]
  · rw [GetRaw_sent, request_sent _ testCtx "whoisxmlapi.com" _
      ⟨MethodGet, testURL, Values.empty⟩ (by decide) rfl]
    simp [builtRequest, applyOptions, optionReplaceKey, Values.Set]

/-- C8, amended: for a non-empty domain name and every sequence of Options,
the query of the one request handed to `Client.Do` by `Get` and by `GetRaw` is
the parameter set with apiKey set to the credential and domainName set to the
argument, with the Options applied to it left to right (followed, in `Get`, by
`OptionOutputFormat("JSON")`); and when no Option of the sequence changes the
entries apiKey and domainName, as is the case for `OptionOutputFormat` and
`OptionMode`, both queries carry apiKey equal to the credential and domainName
equal to the argument. -/
theorem C8_query_credential_and_domainName (unicodeToUpper : Char → Char)
    (decode : Bytes → Except GoError apiResponse)
    (service : domainReputationServiceOp) (ctx : Context) (domainName : String)
    (opts : List Option) (req : Request)
    (hname : domainName ≠ "")
    (hnew : service.client.NewRequest MethodGet service.baseURL = .ok req) :
    ∃ sent sentRaw : Request,
      (service.Get unicodeToUpper decode ctx domainName opts).sent = [sent] ∧
      (service.GetRaw ctx domainName opts).sent = [sentRaw] ∧
      sent.URL.RawQuery =
        applyOptions (Values.Set (Values.Set Values.empty "apiKey" service.client.apiKey)
          "domainName" domainName) (opts ++ [OptionOutputFormat unicodeToUpper "JSON"]) ∧
      sentRaw.URL.RawQuery =
        applyOptions (Values.Set (Values.Set Values.empty "apiKey" service.client.apiKey)
          "domainName" domainName) opts ∧
      ((∀ opt ∈ opts, ∀ v : Values,
          opt v "apiKey" = v "apiKey" ∧ opt v "domainName" = v "domainName") →
        sent.URL.RawQuery "apiKey" = some [service.client.apiKey] ∧
        sent.URL.RawQuery "domainName" = some [domainName] ∧
        sentRaw.URL.RawQuery "apiKey" = some [service.client.apiKey] ∧
        sentRaw.URL.RawQuery "domainName" = some [domainName]) := by
  refine ⟨builtRequest service.client.apiKey req domainName
      (opts ++ [OptionOutputFormat unicodeToUpper "JSON"]),
    builtRequest service.client.apiKey req domainName opts, ?_, ?_, rfl, rfl, ?_⟩
  · rw [Get_sent, request_sent service ctx domainName _ req hname hnew]
  · rw [GetRaw_sent, request_sent service ctx domainName _ req hname hnew]
  · intro hkeep
    have hkey : ∀ opt ∈ opts, ∀ v : Values, opt v "apiKey" = v "apiKey" :=
      fun opt h v => (hkeep opt h v).1
    have hdom : ∀ opt ∈ opts, ∀ v : Values, opt v "domainName" = v "domainName" :=
      fun opt h v => (hkeep opt h v).2
    have hkeyJ : ∀ opt ∈ opts ++ [OptionOutputFormat unicodeToUpper "JSON"],
        ∀ v : Values, opt v "apiKey" = v "apiKey" := by
      intro opt h v
      rcases List.mem_append.mp h with h | h
      · exact hkey opt h v
      · rw [List.mem_singleton.mp h]
        simp [OptionOutputFormat, Values.Set]
    have hdomJ : ∀ opt ∈ opts ++ [OptionOutputFormat unicodeToUpper "JSON"],
        ∀ v : Values, opt v "domainName" = v "domainName" := by
      intro opt h v
      rcases List.mem_append.mp h with h | h
      · exact hdom opt h v
      · rw [List.mem_singleton.mp h]
        simp [OptionOutputFormat, Values.Set]
    refine ⟨?_, ?_, ?_, ?_⟩
    · rw [builtRequest_query, applyOptions_keeps "apiKey" _ hkeyJ]
      simp [Values.Set]
    · rw [builtRequest_query, applyOptions_keeps "domainName" _ hdomJ]
      simp [Values.Set]
    · rw [builtRequest_query, applyOptions_keeps "apiKey" _ hkey]
      simp [Values.Set]
    · rw [builtRequest_query, applyOptions_keeps "domainName" _ hdom]
      simp [Values.Set]

/-- Witness of the amended C8 on the call of `GetRawData` in `example.go`: with
the Options `OptionMode("full")` and `OptionOutputFormat("XML")`, the requests
of `Get` and `GetRaw` carry the credential of the tests and the domain name. -/
theorem C8_query_credential_and_domainName_witness :
    ((testService 200 respBody).Get Char.toUpper testDecode testCtx "whoisxmlapi.com"
        [OptionMode "full", OptionOutputFormat Char.toUpper "XML"]).sent.map
        (fun r => (r.URL.RawQuery "apiKey", r.URL.RawQuery "domainName"))
        = [(some [testApiKey], some ["whoisxmlapi.com"])] ∧
      ((testService 200 respBody).GetRaw testCtx "whoisxmlapi.com"
        [OptionMode "full", OptionOutputFormat Char.toUpper "XML"]).sent.map
        (fun r => (r.URL.RawQuery "apiKey", r.URL.RawQuery "domainName"))
        = [(some [testApiKey], some ["whoisxmlapi.com"])] := by
  obtain ⟨sent, sentRaw, hsent, hraw, -, -, hkeep⟩ :=
    C8_query_credential_and_domainName Char.toUpper testDecode (testService 200 respBody)
      testCtx "whoisxmlapi.com" [OptionMode "full", OptionOutputFormat Char.toUpper "XML"]
      ⟨MethodGet, testURL, Values.empty⟩ (by decide) rfl
  have h := hkeep (by
    intro opt hopt v
    simp only [List.mem_cons, List.mem_singleton, List.not_mem_nil, or_false] at hopt
    rcases hopt with h | h <;> rw [h] <;> simp [OptionMode, OptionOutputFormat, Values.Set])
  rw [hsent, hraw]
  simp only [List.map, h.1, h.2.1, h.2.2.1, h.2.2.2]
  exact ⟨rfl, rfl⟩

/-- C6, as stated, fails for a body cut short of the actual body when no
declared length contradicts it: the stream ends cleanly, so `Client.Do`
reports no error. Here the first 20 bytes of `respBody` arrive with status 200
and no declared length; `GetRaw` returns the envelope with those bytes and a
nil error, not a read error. -/
theorem C6_counterexample_truncated_without_declared_length :
    respBody.take 20 <+: respBody ∧ respBody.take 20 ≠ respBody ∧
      ((streamService none (respBody.take 20)).GetRaw testCtx "whoisxmlapi.com" []).returned
        = .returns ⟨some ⟨some ⟨200, Values.empty⟩, respBody.take 20⟩, none⟩ := by
  refine ⟨List.take_prefix 20 respBody, by decide, ?_⟩
  have hreq := request_ok (streamService none (respBody.take 20)) testCtx "whoisxmlapi.com"
    [] ⟨MethodGet, testURL, Values.empty⟩ (some ⟨200, Values.empty⟩) (respBody.take 20)
    (by decide) rfl rfl
  rw [GetRaw_returned_of_request_ok _ testCtx "whoisxmlapi.com" [] ⟨200, Values.empty⟩
    (respBody.take 20) hreq]
  rfl

/-- C6, amended: for a non-empty domain name, when `Client.Do` is the transport
adapter of the spec and the body stream of the response fails with `cause`
before the body is complete (the declared length is not reached, or the
connection drops), `Get` and `GetRaw` both return the read error
`cannot read response: <cause>`, together with the envelope of the bytes read
so far and, for `Get`, a nil typed result; the error is neither a parse error
nor a status error. -/
theorem C6_failed_stream_is_read_error (unicodeToUpper : Char → Char)
    (decode : Bytes → Except GoError apiResponse)
    (execute : Context → Request → Except GoError (HttpResponse × BodyStream))
    (service : domainReputationServiceOp) (ctx : Context) (domainName : String)
    (opts : List Option) (req : Request)
    (httpResp httpRespRaw : HttpResponse) (stream streamRaw : BodyStream)
    (cause causeRaw : GoError)
    (hname : domainName ≠ "")
    (hnew : service.client.NewRequest MethodGet service.baseURL = .ok req)
    (hclient : service.client.Do = specDo execute)
    (hexec : execute ctx (builtRequest service.client.apiKey req domainName
      (opts ++ [OptionOutputFormat unicodeToUpper "JSON"])) = .ok (httpResp, stream))
    (hfail : stream.failure = some cause)
    (hexecRaw : execute ctx (builtRequest service.client.apiKey req domainName opts)
      = .ok (httpRespRaw, streamRaw))
    (hfailRaw : streamRaw.failure = some causeRaw) :
    (service.Get unicodeToUpper decode ctx domainName opts).returned =
        ⟨none, some ⟨some httpResp, stream.bytes⟩,
          some (.wrap "cannot read response: " cause)⟩ ∧
      (service.GetRaw ctx domainName opts).returned =
        .returns ⟨some ⟨some httpRespRaw, streamRaw.bytes⟩,
          some (.wrap "cannot read response: " causeRaw)⟩ ∧
      (GoError.wrap "cannot read response: " cause).Error =
        "cannot read response: " ++ cause.Error ∧
      (∀ e : GoError,
        GoError.wrap "cannot read response: " cause ≠ .wrap "cannot parse response: " e) ∧
      (∀ code : Int, GoError.wrap "cannot read response: " cause ≠ .status code) := by
  have hdo : service.client.Do ctx (builtRequest service.client.apiKey req domainName
      (opts ++ [OptionOutputFormat unicodeToUpper "JSON"])) =
      ⟨some httpResp, stream.bytes, some (.wrap "cannot read response: " cause)⟩ := by
    rw [hclient]
    simp only [specDo, hexec, hfail]
  have hdoRaw : service.client.Do ctx (builtRequest service.client.apiKey req domainName
      opts) =
      ⟨some httpRespRaw, streamRaw.bytes,
        some (.wrap "cannot read response: " causeRaw)⟩ := by
    rw [hclient]
    simp only [specDo, hexecRaw, hfailRaw]
  refine ⟨?_, ?_, rfl, ?_, ?_⟩
  · exact Get_returned_of_request_error unicodeToUpper decode service ctx domainName opts _ _
      (request_failed service ctx domainName _ req _ _ _ hname hnew hdo)
  · exact GetRaw_returned_of_request_error service ctx domainName opts _ _
      (request_failed service ctx domainName _ req _ _ _ hname hnew hdoRaw)
  · intro e h
    have hpfx : "cannot read response: " = "cannot parse response: " :=
      (GoError.wrap.inj h).1
    exact absurd hpfx (by decide)
  · intro code h
    exact GoError.noConfusion h

/-- Witness of the amended C6 on the "partial response 2" test: the header
declares the length of `respBody`, 20 bytes arrive, and `Get` and `GetRaw`
both return the read error with cause "unexpected EOF". -/
theorem C6_failed_stream_is_read_error_witness :
    ((streamService (some respBody.length) (respBody.take 20)).Get Char.toUpper testDecode
        testCtx "whoisxmlapi.com" []).returned.err =
        some (.wrap "cannot read response: " (.external "unexpected EOF")) ∧
      ((streamService (some respBody.length) (respBody.take 20)).GetRaw
        testCtx "whoisxmlapi.com" []).returned =
        .returns ⟨some ⟨some ⟨200, Values.empty⟩, respBody.take 20⟩,
          some (.wrap "cannot read response: " (.external "unexpected EOF"))⟩ ∧
      (GoError.wrap "cannot read response: " (.external "unexpected EOF")).Error =
        "cannot read response: unexpected EOF" := by
  have h := C6_failed_stream_is_read_error Char.toUpper testDecode
    (fun _ _ => .ok (⟨200, Values.empty⟩,
      bodyStream (some respBody.length) (respBody.take 20)))
    (streamService (some respBody.length) (respBody.take 20)) testCtx "whoisxmlapi.com" []
    ⟨MethodGet, testURL, Values.empty⟩ ⟨200, Values.empty⟩ ⟨200, Values.empty⟩
    (bodyStream (some respBody.length) (respBody.take 20))
    (bodyStream (some respBody.length) (respBody.take 20))
    (.external "unexpected EOF") (.external "unexpected EOF")
    (by decide) rfl rfl rfl (by decide) rfl (by decide)
  refine ⟨by rw [h.1], ?_, h.2.2.1⟩
  rw [h.2.1]
  rfl

end DomainReputation
